import Mathlib

/-!
# Toast presenter: static/js/script.js

The script registers one DOMContentLoaded listener.  The listener looks up the
first element matching the selector .toast-notification and, when there is one,
registers two timeouts whose callbacks close over that element reference: the
first calls classList.add with the token show after 100 ms, the second calls
classList.remove with the token show after 5000 ms.

The script is embedded over an explicit browser state: a document (node store
plus document order), a clock in milliseconds, the list of pending timers and
a ghost trace of the callbacks that have run.  The platform operations the
script calls (querySelector, classList.add, classList.remove, setTimeout and
the timer phase of the event loop) follow the DOM and HTML standards; in
particular a timeout runs at or after its due time, never before, and how
long after is a parameter of every run.
-/

namespace Toast

/-! ## Data model -/

/-- Identity of a DOM node.  A reference held by a script stays valid whatever
later happens to the page, so nodes live in a store indexed by identity. -/
abbrev NodeId := Nat

/-- An element: the token set of its classList, in order, and its other attributes. -/
structure Element where
  classes : List String
  attrs : List (String × String)
  deriving DecidableEq, Repr

/-- A document: the identities of the attached elements in document order, and
the node store. -/
structure Document where
  order : List NodeId
  node : NodeId → Element

/-- The exceptions a DOMTokenList method can throw. -/
inductive DOMException where
  | SyntaxError
  | InvalidCharacterError
  deriving DecidableEq, Repr

/-! ## Platform operations used by the script -/

/-- ASCII whitespace: tab, line feed, form feed, carriage return, space. -/
def isAsciiWhitespace (c : Char) : Bool :=
  c.toNat = 9 || c.toNat = 10 || c.toNat = 12 || c.toNat = 13 || c.toNat = 32

/-- Token validation shared by classList.add and classList.remove: the empty
token is a SyntaxError, a token holding whitespace an InvalidCharacterError. -/
def validateToken (token : String) : Except DOMException Unit :=
  if token = "" then .error .SyntaxError
  else if token.data.any isAsciiWhitespace then .error .InvalidCharacterError
  else .ok ()

namespace classList

/-- The method classList.add(token): validate, then append the token to the
ordered token set, which leaves the set alone when the token is already in it. -/
def add (tokens : List String) (token : String) : Except DOMException (List String) := do
  validateToken token
  pure (if token ∈ tokens then tokens else tokens ++ [token])

/-- The method classList.remove(token): validate, then delete the token from
the ordered token set. -/
def remove (tokens : List String) (token : String) : Except DOMException (List String) := do
  validateToken token
  pure (tokens.filter (fun t => t != token))

end classList

/-- Replace the class token set of one node, leaving everything else alone. -/
def Document.setClasses (d : Document) (el : NodeId) (cs : List String) : Document :=
  { d with node := Function.update d.node el { d.node el with classes := cs } }

/-- The elements matching a class selector, in document order. -/
def Document.matching (d : Document) (cls : String) : List NodeId :=
  d.order.filter (fun n => decide (cls ∈ (d.node n).classes))

/-- The call document.querySelector for a single class selector (the script
passes .toast-notification): the first attached element, in document order,
whose class token set holds the class; null when none does. -/
def querySelector (d : Document) (cls : String) : Option NodeId :=
  d.order.find? (fun n => decide (cls ∈ (d.node n).classes))

/-- The two arrow functions the listener passes to setTimeout, as closures over
the constant toastNotification. -/
inductive Callback where
  /-- Lines 12-14: toastNotification.classList.add applied to show. -/
  | addShow (toastNotification : NodeId)
  /-- Lines 17-19: toastNotification.classList.remove applied to show. -/
  | removeShow (toastNotification : NodeId)
  deriving DecidableEq, Repr

/-- Body of a timer callback, run against the document as it is when the timer fires. -/
def Callback.run : Callback → Document → Except DOMException Document
  | .addShow toastNotification, d => do
      let cs ← classList.add (d.node toastNotification).classes "show"
      pure (d.setClasses toastNotification cs)
  | .removeShow toastNotification, d => do
      let cs ← classList.remove (d.node toastNotification).classes "show"
      pure (d.setClasses toastNotification cs)

/-- A pending timer: absolute due time in milliseconds and the callback. -/
structure Timer where
  due : Nat
  callback : Callback
  deriving DecidableEq, Repr

/-- Ghost events recorded in the trace. -/
inductive Event where
  | listenerRan
  | timerRan (cb : Callback)
  | timerThrew (cb : Callback) (err : DOMException)
  deriving DecidableEq, Repr

/-- Browser state seen by the script. -/
structure Browser where
  doc : Document
  now : Nat
  timers : List Timer
  trace : List (Nat × Event)

/-- State at the instant T at which DOMContentLoaded is dispatched on page d:
nothing pending, nothing run yet. -/
def Browser.atTrigger (d : Document) (T : Nat) : Browser :=
  { doc := d, now := T, timers := [], trace := [] }

/-- The call setTimeout(callback, delay): register a timer due delay
milliseconds after the current instant; control returns at once. -/
def setTimeout (callback : Callback) (delay : Nat) (b : Browser) : Browser :=
  { b with timers := b.timers ++ [{ due := b.now + delay, callback := callback }] }

/-! ## The script -/

/-- The DOMContentLoaded listener of script.js, lines 3-22. -/
def onDOMContentLoaded (b : Browser) : Browser :=
  let b := { b with trace := b.trace ++ [(b.now, Event.listenerRan)] }
  match querySelector b.doc "toast-notification" with
  | some toastNotification =>
      let b := setTimeout (.addShow toastNotification) 100 b
      setTimeout (.removeShow toastNotification) 5000 b
  | none => b

/-! ## Timer phase of the event loop -/

/-- Insert a timer into a list ordered by due time, after every timer that is
not due later (so ties keep registration order). -/
def insertByDue (t : Timer) : List Timer → List Timer
  | [] => [t]
  | u :: us => if t.due < u.due then t :: u :: us else u :: insertByDue t us

/-- Order timers by due time, ties in registration order. -/
def dueOrder (ts : List Timer) : List Timer :=
  ts.foldl (fun acc t => insertByDue t acc) []

/-- How late the platform runs each timeout.  A timeout never runs before its
due time; how long after is up to the platform (a busy main thread, timer
throttling), so it is a parameter of the run. -/
abbrev Lateness := Timer → Nat

/-- The schedule on which every timeout runs exactly at its due time. -/
def onTime : Lateness := fun _ => 0

/-- A schedule with a busy main thread: the show callback runs 12 ms after it
is due, the hide callback 10 ms after it is due. -/
def busyMainThread : Lateness := fun t =>
  match t.callback with
  | .addShow _ => 12
  | .removeShow _ => 10

/-- Instant at which a timer runs when the clock stands at now: its due time
plus the lateness, and not before now (the timers ordered before it have
completed by then). -/
def runInstant (late : Lateness) (now : Nat) (t : Timer) : Nat :=
  max (t.due + late t) now

/-- Run one timer at the given instant.  An exception thrown by the callback
is reported and leaves the document as it was. -/
def fireTimer (b : Browser) (instant : Nat) (t : Timer) : Browser :=
  match t.callback.run b.doc with
  | .ok d => { b with doc := d, now := instant,
                      trace := b.trace ++ [(instant, Event.timerRan t.callback)] }
  | .error e => { b with now := instant,
                         trace := b.trace ++ [(instant, Event.timerThrew t.callback e)] }

/-- Run the timers of a due-ordered list, one after the other, as long as their
run instant is not past the limit; the first timer that is not ready and all
those ordered after it stay pending. -/
def runReady (late : Lateness) (limit : Nat) : List Timer → Browser → Browser
  | [], b => { b with timers := [] }
  | t :: ts, b =>
      if runInstant late b.now t ≤ limit then
        runReady late limit ts (fireTimer { b with timers := ts } (runInstant late b.now t) t)
      else { b with timers := t :: ts }

/-- Let dt milliseconds pass: the pending timers run in order of due time, each
at or after its due time as the lateness says, up to the instant now + dt,
where the clock ends. -/
def elapse (late : Lateness) (dt : Nat) (b : Browser) : Browser :=
  let b1 := runReady late (b.now + dt) (dueOrder b.timers) b
  { b1 with now := b.now + dt }

/-- The page as it stands t milliseconds after the trigger at instant T, when
only this script acts on it. -/
def pageAfter (late : Lateness) (d : Document) (T t : Nat) : Browser :=
  elapse late t (onDOMContentLoaded (Browser.atTrigger d T))

/-- Instant at which the show callback registered at trigger time T runs. -/
def showInstant (late : Lateness) (T : Nat) (el : NodeId) : Nat :=
  runInstant late T ⟨T + 100, .addShow el⟩

/-- Instant at which the hide callback registered at trigger time T runs: at
or after its due time, and after the show callback. -/
def hideInstant (late : Lateness) (T : Nat) (el : NodeId) : Nat :=
  runInstant late (showInstant late T el) ⟨T + 5000, .removeShow el⟩

/-- The token set classList.add leaves when called with the token show. -/
def withShow (c : List String) : List String :=
  if "show" ∈ c then c else c ++ ["show"]

/-- The token set classList.remove leaves when called with the token show. -/
def withoutShow (c : List String) : List String :=
  c.filter (fun t => t != "show")

/-- A rendered page with one flashed message: a heading and the toast. -/
def toastPage : Document :=
  { order := [0, 1]
    node := fun n =>
      if n = 1 then { classes := ["toast-notification", "success"], attrs := [("role", "alert")] }
      else { classes := ["title"], attrs := [] } }

/-- A rendered page with two toast elements after a heading. -/
def demoPage : Document :=
  { order := [0, 1, 2]
    node := fun n =>
      if n = 1 then { classes := ["toast-notification", "success"], attrs := [("role", "alert")] }
      else if n = 2 then { classes := ["toast-notification"], attrs := [] }
      else { classes := ["title"], attrs := [] } }

/-- A change made to the page by other code: a new toast element, node 7, is
inserted before every attached element. -/
def insertEarlierToast (p : Document) : Document :=
  { order := 7 :: p.order
    node := Function.update p.node 7 { classes := ["toast-notification"], attrs := [] } }

/-- A change made to the page by other code: every class of node 1 is dropped. -/
def stripClassesOfNode1 (p : Document) : Document :=
  p.setClasses 1 []

/-- A page rendered with the toast already carrying show. -/
def shownPage : Document :=
  { order := [0, 1]
    node := fun n =>
      if n = 1 then { classes := ["toast-notification", "show", "success"], attrs := [] }
      else { classes := ["title"], attrs := [] } }

/-- A rendered page without any toast. -/
def plainPage : Document :=
  { order := [0]
    node := fun _ => { classes := ["title"], attrs := [] } }

/-! ## Auxiliary lemmas -/

theorem validateToken_show : validateToken "show" = .ok () := by rfl

theorem classList_add_show (c : List String) :
    classList.add c "show" = .ok (if "show" ∈ c then c else c ++ ["show"]) := by
  simp only [classList.add, validateToken_show]
  rfl

theorem classList_remove_show (c : List String) :
    classList.remove c "show" = .ok (c.filter (fun t => t != "show")) := by
  simp only [classList.remove, validateToken_show]
  rfl

theorem run_addShow (el : NodeId) (d : Document) :
    Callback.run (.addShow el) d
      = .ok (d.setClasses el
          (if "show" ∈ (d.node el).classes then (d.node el).classes
           else (d.node el).classes ++ ["show"])) := by
  simp only [Callback.run, classList_add_show]
  rfl

theorem run_removeShow (el : NodeId) (d : Document) :
    Callback.run (.removeShow el) d
      = .ok (d.setClasses el ((d.node el).classes.filter (fun t => t != "show"))) := by
  simp only [Callback.run, classList_remove_show]
  rfl

theorem querySelector_eq_head_matching (d : Document) (cls : String) :
    querySelector d cls = (d.matching cls).head? := by
  unfold querySelector Document.matching
  induction d.order with
  | nil => rfl
  | cons n ns ih =>
    by_cases h : cls ∈ (d.node n).classes
    · simp only [List.find?_cons, List.filter_cons, h, decide_True, if_true, List.head?_cons]
    · simp only [List.find?_cons, List.filter_cons, h, decide_False, Bool.false_eq_true,
        if_false]
      exact ih

/-- The timer phase goes by due time, not by registration order. -/
theorem dueOrder_by_due_time :
    dueOrder [⟨5000, .removeShow 1⟩, ⟨100, .addShow 1⟩, ⟨100, .removeShow 2⟩]
      = [⟨100, .addShow 1⟩, ⟨100, .removeShow 2⟩, ⟨5000, .removeShow 1⟩] := by
  decide

theorem onDOMContentLoaded_found (b : Browser) (el : NodeId)
    (h : querySelector b.doc "toast-notification" = some el) :
    onDOMContentLoaded b =
      { doc := b.doc, now := b.now,
        timers := b.timers ++ [⟨b.now + 100, .addShow el⟩, ⟨b.now + 5000, .removeShow el⟩],
        trace := b.trace ++ [(b.now, Event.listenerRan)] } := by
  simp [onDOMContentLoaded, h, setTimeout]

theorem onDOMContentLoaded_absent (b : Browser)
    (h : querySelector b.doc "toast-notification" = none) :
    onDOMContentLoaded b = { b with trace := b.trace ++ [(b.now, Event.listenerRan)] } := by
  simp [onDOMContentLoaded, h]

theorem fireTimer_addShow (b : Browser) (instant due : Nat) (el : NodeId) :
    fireTimer b instant ⟨due, .addShow el⟩ =
      { b with doc := b.doc.setClasses el (withShow (b.doc.node el).classes), now := instant,
               trace := b.trace ++ [(instant, Event.timerRan (.addShow el))] } := by
  simp only [fireTimer, run_addShow, withShow]

theorem fireTimer_removeShow (b : Browser) (instant due : Nat) (el : NodeId) :
    fireTimer b instant ⟨due, .removeShow el⟩ =
      { b with doc := b.doc.setClasses el (withoutShow (b.doc.node el).classes), now := instant,
               trace := b.trace ++ [(instant, Event.timerRan (.removeShow el))] } := by
  simp only [fireTimer, run_removeShow, withoutShow]

theorem dueOrder_pair (T : Nat) (a r : Callback) :
    dueOrder [⟨T + 100, a⟩, ⟨T + 5000, r⟩] = [⟨T + 100, a⟩, ⟨T + 5000, r⟩] := by
  simp [dueOrder, insertByDue]

theorem runInstant_ge_due (late : Lateness) (now : Nat) (t : Timer) :
    t.due ≤ runInstant late now t := by
  unfold runInstant; omega

theorem runInstant_ge_now (late : Lateness) (now : Nat) (t : Timer) :
    now ≤ runInstant late now t := by
  unfold runInstant; omega

theorem runInstant_onTime_add (T : Nat) (cb : Callback) :
    runInstant onTime T ⟨T + 100, cb⟩ = T + 100 := by
  simp only [runInstant, onTime]; omega

theorem runInstant_onTime_remove (T : Nat) (cb : Callback) :
    runInstant onTime (T + 100) ⟨T + 5000, cb⟩ = T + 5000 := by
  simp only [runInstant, onTime]; omega

theorem pageAfter_before (late : Lateness) (d : Document) (T t : Nat) (el : NodeId)
    (h : querySelector d "toast-notification" = some el)
    (ht : T + t < runInstant late T ⟨T + 100, .addShow el⟩) :
    pageAfter late d T t =
      { doc := d, now := T + t,
        timers := [⟨T + 100, .addShow el⟩, ⟨T + 5000, .removeShow el⟩],
        trace := [(T, Event.listenerRan)] } := by
  have h1 : ¬ (runInstant late T ⟨T + 100, .addShow el⟩ ≤ T + t) := by omega
  rw [pageAfter, onDOMContentLoaded_found _ el h]
  simp [elapse, Browser.atTrigger, dueOrder_pair, runReady, h1]

theorem pageAfter_between (late : Lateness) (d : Document) (T t : Nat) (el : NodeId)
    (h : querySelector d "toast-notification" = some el)
    (ht1 : runInstant late T ⟨T + 100, .addShow el⟩ ≤ T + t)
    (ht2 : T + t < runInstant late (runInstant late T ⟨T + 100, .addShow el⟩)
                      ⟨T + 5000, .removeShow el⟩) :
    pageAfter late d T t =
      { doc := d.setClasses el (withShow (d.node el).classes), now := T + t,
        timers := [⟨T + 5000, .removeShow el⟩],
        trace := [(T, Event.listenerRan),
                  (runInstant late T ⟨T + 100, .addShow el⟩, Event.timerRan (.addShow el))] } := by
  have h2 : ¬ (runInstant late (runInstant late T ⟨T + 100, .addShow el⟩)
                ⟨T + 5000, .removeShow el⟩ ≤ T + t) := by omega
  rw [pageAfter, onDOMContentLoaded_found _ el h]
  simp [elapse, Browser.atTrigger, dueOrder_pair, runReady, ht1, h2, fireTimer_addShow]

theorem pageAfter_after (late : Lateness) (d : Document) (T t : Nat) (el : NodeId)
    (h : querySelector d "toast-notification" = some el)
    (ht : runInstant late (runInstant late T ⟨T + 100, .addShow el⟩)
            ⟨T + 5000, .removeShow el⟩ ≤ T + t) :
    pageAfter late d T t =
      { doc := (d.setClasses el (withShow (d.node el).classes)).setClasses el
                 (withoutShow (withShow (d.node el).classes)),
        now := T + t,
        timers := [],
        trace := [(T, Event.listenerRan),
                  (runInstant late T ⟨T + 100, .addShow el⟩, Event.timerRan (.addShow el)),
                  (runInstant late (runInstant late T ⟨T + 100, .addShow el⟩)
                     ⟨T + 5000, .removeShow el⟩, Event.timerRan (.removeShow el))] } := by
  have h1 : runInstant late T ⟨T + 100, .addShow el⟩ ≤ T + t :=
    Nat.le_trans (runInstant_ge_now late _ _) ht
  rw [pageAfter, onDOMContentLoaded_found _ el h]
  simp [elapse, Browser.atTrigger, dueOrder_pair, runReady, h1, ht, fireTimer_addShow,
    fireTimer_removeShow, Document.setClasses]

theorem pageAfter_early (d : Document) (T t : Nat) (el : NodeId)
    (h : querySelector d "toast-notification" = some el) (ht : t < 100) :
    pageAfter onTime d T t =
      { doc := d, now := T + t,
        timers := [⟨T + 100, .addShow el⟩, ⟨T + 5000, .removeShow el⟩],
        trace := [(T, Event.listenerRan)] } := by
  apply pageAfter_before onTime d T t el h
  rw [runInstant_onTime_add]; omega

theorem pageAfter_shown (d : Document) (T t : Nat) (el : NodeId)
    (h : querySelector d "toast-notification" = some el) (ht : 100 ≤ t) (ht2 : t < 5000) :
    pageAfter onTime d T t =
      { doc := d.setClasses el (withShow (d.node el).classes), now := T + t,
        timers := [⟨T + 5000, .removeShow el⟩],
        trace := [(T, Event.listenerRan), (T + 100, Event.timerRan (.addShow el))] } := by
  have := pageAfter_between onTime d T t el h
    (by rw [runInstant_onTime_add]; omega)
    (by rw [runInstant_onTime_add, runInstant_onTime_remove]; omega)
  rw [runInstant_onTime_add] at this
  exact this

theorem pageAfter_hidden (d : Document) (T t : Nat) (el : NodeId)
    (h : querySelector d "toast-notification" = some el) (ht : 5000 ≤ t) :
    pageAfter onTime d T t =
      { doc := (d.setClasses el (withShow (d.node el).classes)).setClasses el
                 (withoutShow (withShow (d.node el).classes)),
        now := T + t,
        timers := [],
        trace := [(T, Event.listenerRan), (T + 100, Event.timerRan (.addShow el)),
                  (T + 5000, Event.timerRan (.removeShow el))] } := by
  have := pageAfter_after onTime d T t el h
    (by rw [runInstant_onTime_add, runInstant_onTime_remove]; omega)
  rw [runInstant_onTime_add, runInstant_onTime_remove] at this
  exact this

theorem showInstant_ge (late : Lateness) (T : Nat) (el : NodeId) :
    T + 100 ≤ showInstant late T el :=
  runInstant_ge_due late T ⟨T + 100, .addShow el⟩

theorem hideInstant_ge (late : Lateness) (T : Nat) (el : NodeId) :
    T + 5000 ≤ hideInstant late T el :=
  runInstant_ge_due late _ ⟨T + 5000, .removeShow el⟩

theorem showInstant_le_hideInstant (late : Lateness) (T : Nat) (el : NodeId) :
    showInstant late T el ≤ hideInstant late T el :=
  runInstant_ge_now late _ _

theorem showInstant_onTime (T : Nat) (el : NodeId) : showInstant onTime T el = T + 100 :=
  runInstant_onTime_add T _

theorem hideInstant_onTime (T : Nat) (el : NodeId) : hideInstant onTime T el = T + 5000 := by
  rw [hideInstant, showInstant_onTime]; exact runInstant_onTime_remove T _

theorem mem_withShow (c : List String) : "show" ∈ withShow c := by
  unfold withShow; split
  · assumption
  · simp

theorem not_mem_withoutShow (c : List String) : "show" ∉ withoutShow c := by
  simp [withoutShow, List.mem_filter]

theorem withoutShow_withShow (c : List String) : withoutShow (withShow c) = withoutShow c := by
  by_cases hs : "show" ∈ c
  · simp [withShow, withoutShow, hs]
  · simp [withShow, withoutShow, hs, List.filter_append]

theorem withoutShow_eq_self (c : List String) (hs : "show" ∉ c) : withoutShow c = c := by
  rw [withoutShow, List.filter_eq_self]
  intro a ha
  have : a ≠ "show" := fun e => hs (e ▸ ha)
  simpa using this

theorem setClasses_node_self (d : Document) (el : NodeId) (cs : List String) :
    ((d.setClasses el cs).node el).classes = cs := by
  simp [Document.setClasses]

theorem setClasses_attrs_self (d : Document) (el : NodeId) (cs : List String) :
    ((d.setClasses el cs).node el).attrs = (d.node el).attrs := by
  simp [Document.setClasses]

theorem setClasses_node_other (d : Document) (el n : NodeId) (cs : List String) (hn : n ≠ el) :
    (d.setClasses el cs).node n = d.node n := by
  simp [Document.setClasses, Function.update_noteq hn]

theorem classes_before (late : Lateness) (d : Document) (T t : Nat) (el : NodeId)
    (h : querySelector d "toast-notification" = some el)
    (ht : T + t < showInstant late T el) :
    ((pageAfter late d T t).doc.node el).classes = (d.node el).classes := by
  rw [pageAfter_before late d T t el h ht]

theorem classes_between (late : Lateness) (d : Document) (T t : Nat) (el : NodeId)
    (h : querySelector d "toast-notification" = some el)
    (ht1 : showInstant late T el ≤ T + t) (ht2 : T + t < hideInstant late T el) :
    ((pageAfter late d T t).doc.node el).classes = withShow (d.node el).classes := by
  rw [pageAfter_between late d T t el h ht1 ht2]
  exact setClasses_node_self _ _ _

theorem classes_after (late : Lateness) (d : Document) (T t : Nat) (el : NodeId)
    (h : querySelector d "toast-notification" = some el)
    (ht : hideInstant late T el ≤ T + t) :
    ((pageAfter late d T t).doc.node el).classes = withoutShow (d.node el).classes := by
  rw [pageAfter_after late d T t el h ht]
  show ((Document.setClasses _ el _).node el).classes = _
  rw [setClasses_node_self, withoutShow_withShow]

theorem frame_at_all_times (late : Lateness) (d : Document) (T t : Nat) (el : NodeId)
    (h : querySelector d "toast-notification" = some el) :
    (pageAfter late d T t).doc.order = d.order
      ∧ ∀ n : NodeId, n ≠ el → (pageAfter late d T t).doc.node n = d.node n := by
  rcases Nat.lt_or_ge (T + t) (showInstant late T el) with h1 | h1
  · rw [pageAfter_before late d T t el h h1]
    exact ⟨rfl, fun _ _ => rfl⟩
  · rcases Nat.lt_or_ge (T + t) (hideInstant late T el) with h2 | h2
    · rw [pageAfter_between late d T t el h h1 h2]
      exact ⟨rfl, fun n hn => setClasses_node_other _ _ _ _ hn⟩
    · rw [pageAfter_after late d T t el h h2]
      refine ⟨rfl, fun n hn => ?_⟩
      show (Document.setClasses _ el _).node n = _
      rw [setClasses_node_other _ _ _ _ hn, setClasses_node_other _ _ _ _ hn]

/-! ## The claims -/

/-- C1: when exactly one element matches .toast-notification as the listener
runs at instant T (the clock of the state it runs in), the listener registers
exactly two timers after those already pending and touches nothing else: one
due at T + 100 whose callback adds show to that element, one due at T + 5000
(not T + 5100) whose callback removes show from that element. -/
theorem C1_listener_schedules_show_and_hide (b : Browser) (el : NodeId)
    (h : b.doc.matching "toast-notification" = [el]) :
    (onDOMContentLoaded b).timers
        = b.timers ++ [⟨b.now + 100, .addShow el⟩, ⟨b.now + 5000, .removeShow el⟩]
      ∧ (b.timers = [] → (onDOMContentLoaded b).timers
            = [⟨b.now + 100, .addShow el⟩, ⟨b.now + 5000, .removeShow el⟩])
      ∧ (onDOMContentLoaded b).timers.length = b.timers.length + 2
      ∧ (onDOMContentLoaded b).doc = b.doc
      ∧ (onDOMContentLoaded b).now = b.now
      ∧ (∀ d : Document, Callback.run (.addShow el) d
            = .ok (d.setClasses el (withShow (d.node el).classes)))
      ∧ (∀ d : Document, Callback.run (.removeShow el) d
            = .ok (d.setClasses el (withoutShow (d.node el).classes))) := by
  have hq : querySelector b.doc "toast-notification" = some el := by
    rw [querySelector_eq_head_matching, h]; rfl
  rw [onDOMContentLoaded_found b el hq]
  refine ⟨rfl, ?_, ?_, rfl, rfl, ?_, ?_⟩
  · intro hb; simp [hb]
  · simp
  · intro d; exact run_addShow el d
  · intro d; exact run_removeShow el d

theorem C1_listener_schedules_show_and_hide_witness :
    (onDOMContentLoaded (Browser.atTrigger toastPage 40)).timers
      = [⟨140, .addShow 1⟩, ⟨5040, .removeShow 1⟩] :=
  (C1_listener_schedules_show_and_hide (Browser.atTrigger toastPage 40) 1 (by decide)).2.1 rfl

/-- C2: when no element matches .toast-notification as the listener runs, the
listener returns the state it was given (no timer registered, document and
clock untouched, only its own run recorded), and from a state with nothing
pending no callback ever runs later: whatever the page has become since
(a matching element inserted, say), however much time passes and however
late the platform runs timers, the page stays as it is and the trace gains
no entry. -/
theorem C2_no_toast_no_action (b : Browser)
    (h : b.doc.matching "toast-notification" = []) :
    (onDOMContentLoaded b).timers = b.timers
      ∧ (onDOMContentLoaded b).doc = b.doc
      ∧ (onDOMContentLoaded b).now = b.now
      ∧ (onDOMContentLoaded b).trace = b.trace ++ [(b.now, Event.listenerRan)]
      ∧ (b.timers = [] → ∀ (late : Lateness) (later : Document) (t : Nat),
          (elapse late t { onDOMContentLoaded b with doc := later }).doc = later
          ∧ (elapse late t { onDOMContentLoaded b with doc := later }).timers = []
          ∧ (elapse late t { onDOMContentLoaded b with doc := later }).trace
              = b.trace ++ [(b.now, Event.listenerRan)]) := by
  have hq : querySelector b.doc "toast-notification" = none := by
    rw [querySelector_eq_head_matching, h]; rfl
  rw [onDOMContentLoaded_absent b hq]
  refine ⟨rfl, rfl, rfl, rfl, ?_⟩
  intro hb late later t
  simp [elapse, hb, dueOrder, runReady]

theorem C2_no_toast_no_action_witness :
    (onDOMContentLoaded (Browser.atTrigger plainPage 40)).timers = []
      ∧ (elapse onTime 9000 { onDOMContentLoaded (Browser.atTrigger plainPage 40)
                               with doc := toastPage }).trace = [(40, Event.listenerRan)] :=
  ⟨(C2_no_toast_no_action (Browser.atTrigger plainPage 40) (by decide)).1,
   ((C2_no_toast_no_action (Browser.atTrigger plainPage 40) (by decide)).2.2.2.2 rfl
      onTime toastPage 9000).2.2⟩

/-- C3: when two or more elements match .toast-notification at trigger time,
both timers the listener registers carry the first match el in document
order; run on any page, the first callback leaves el with show in its class
list (appended when it was missing) and the second leaves el with show
deleted from its class list.  In the run, however late the platform runs
the timers, the class list of el is the rendered one before the show
callback runs, the rendered one with show added from then until the hide
callback runs, and the rendered one with show deleted from then on; and at
every time the document order is as rendered and every node other than el
(so every other matching element) has the class list and attributes it was
rendered with. -/
theorem C3_only_first_match_mutated (late : Lateness) (d : Document) (T : Nat) (el : NodeId)
    (rest : List NodeId)
    (h : d.matching "toast-notification" = el :: rest) (hrest : rest ≠ []) :
    2 ≤ (d.matching "toast-notification").length
      ∧ (onDOMContentLoaded (Browser.atTrigger d T)).timers
          = [⟨T + 100, .addShow el⟩, ⟨T + 5000, .removeShow el⟩]
      ∧ (∀ page : Document, ∃ page1 : Document,
          Callback.run (.addShow el) page = .ok page1
          ∧ (page1.node el).classes
              = (if "show" ∈ (page.node el).classes then (page.node el).classes
                 else (page.node el).classes ++ ["show"])
          ∧ "show" ∈ (page1.node el).classes)
      ∧ (∀ page : Document, ∃ page1 : Document,
          Callback.run (.removeShow el) page = .ok page1
          ∧ (page1.node el).classes = (page.node el).classes.filter (fun c => c != "show")
          ∧ "show" ∉ (page1.node el).classes)
      ∧ ∀ t : Nat,
          (T + t < showInstant late T el →
            ((pageAfter late d T t).doc.node el).classes = (d.node el).classes)
          ∧ (showInstant late T el ≤ T + t → T + t < hideInstant late T el →
            ((pageAfter late d T t).doc.node el).classes
                = (if "show" ∈ (d.node el).classes then (d.node el).classes
                   else (d.node el).classes ++ ["show"])
              ∧ "show" ∈ ((pageAfter late d T t).doc.node el).classes)
          ∧ (hideInstant late T el ≤ T + t →
            ((pageAfter late d T t).doc.node el).classes
                = (d.node el).classes.filter (fun c => c != "show")
              ∧ "show" ∉ ((pageAfter late d T t).doc.node el).classes)
          ∧ (pageAfter late d T t).doc.order = d.order
          ∧ ∀ n : NodeId, n ≠ el → (pageAfter late d T t).doc.node n = d.node n := by
  have hq : querySelector d "toast-notification" = some el := by
    rw [querySelector_eq_head_matching, h]; rfl
  refine ⟨?_, ?_, ?_, ?_, ?_⟩
  · cases rest with
    | nil => exact absurd rfl hrest
    | cons r rs => simp [h]
  · rw [onDOMContentLoaded_found _ el hq]; rfl
  · intro page
    refine ⟨_, run_addShow el page, setClasses_node_self _ _ _, ?_⟩
    rw [setClasses_node_self]; exact mem_withShow _
  · intro page
    refine ⟨_, run_removeShow el page, setClasses_node_self _ _ _, ?_⟩
    rw [setClasses_node_self]; exact not_mem_withoutShow _
  · intro t
    refine ⟨classes_before late d T t el hq, ?_, ?_, frame_at_all_times late d T t el hq⟩
    · intro h1 h2
      rw [classes_between late d T t el hq h1 h2]
      exact ⟨rfl, mem_withShow _⟩
    · intro h2
      rw [classes_after late d T t el hq h2]
      exact ⟨rfl, not_mem_withoutShow _⟩

theorem C3_only_first_match_mutated_witness :
    "show" ∈ ((pageAfter onTime demoPage 0 100).doc.node 1).classes
      ∧ "show" ∉ ((pageAfter onTime demoPage 0 5000).doc.node 1).classes
      ∧ (pageAfter onTime demoPage 0 100).doc.node 2 = demoPage.node 2 :=
  ⟨(((C3_only_first_match_mutated onTime demoPage 0 1 [2] (by decide) (by decide)).2.2.2.2
      100).2.1 (by decide) (by decide)).2,
   (((C3_only_first_match_mutated onTime demoPage 0 1 [2] (by decide) (by decide)).2.2.2.2
      5000).2.2.1 (by decide)).2,
   ((C3_only_first_match_mutated onTime demoPage 0 1 [2] (by decide) (by decide)).2.2.2.2
      100).2.2.2.2 2 (by decide)⟩

/-- C4: when the element is found and timers run in order of due time, the
trace of the run up to any elapsed time t is the listener at T, followed by
the addition of show at T + 100 once t reaches 100, followed by the removal
of show at T + 5000 once t reaches 5000, with T < T + 100 < T + 5000; so
whenever the removal is in the trace the addition stands right before it.
The same order holds however late the platform runs the two timers: the
trace is the listener at T, then the addition at its run instant once that
is reached, then the removal at its run instant once that is reached, the
listener strictly before the addition and the addition not after the
removal. -/
theorem C4_listener_then_show_then_hide (d : Document) (T t : Nat) (el : NodeId)
    (h : querySelector d "toast-notification" = some el) :
    (pageAfter onTime d T t).trace
        = (T, Event.listenerRan)
            :: ((if 100 ≤ t then [(T + 100, Event.timerRan (.addShow el))] else [])
                ++ (if 5000 ≤ t then [(T + 5000, Event.timerRan (.removeShow el))] else []))
      ∧ T < T + 100 ∧ T + 100 < T + 5000
      ∧ ((T + 5000, Event.timerRan (.removeShow el)) ∈ (pageAfter onTime d T t).trace →
          (pageAfter onTime d T t).trace
            = [(T, Event.listenerRan), (T + 100, Event.timerRan (.addShow el)),
               (T + 5000, Event.timerRan (.removeShow el))])
      ∧ (∀ late : Lateness,
          (pageAfter late d T t).trace
              = (T, Event.listenerRan)
                  :: ((if showInstant late T el ≤ T + t
                        then [(showInstant late T el, Event.timerRan (.addShow el))] else [])
                      ++ (if hideInstant late T el ≤ T + t
                            then [(hideInstant late T el, Event.timerRan (.removeShow el))]
                            else []))
            ∧ T < showInstant late T el
            ∧ showInstant late T el ≤ hideInstant late T el) := by
  refine ⟨?_, by omega, by omega, ?_, ?_⟩
  · rcases Nat.lt_or_ge t 100 with h1 | h1
    · rw [pageAfter_early d T t el h h1]
      have h3 : ¬ (100 ≤ t) := by omega
      have h4 : ¬ (5000 ≤ t) := by omega
      simp [h3, h4]
    · rcases Nat.lt_or_ge t 5000 with h2 | h2
      · rw [pageAfter_shown d T t el h h1 h2]
        have h4 : ¬ (5000 ≤ t) := by omega
        simp [h1, h4]
      · rw [pageAfter_hidden d T t el h h2]
        have h3 : 100 ≤ t := by omega
        simp [h3, h2]
  · rcases Nat.lt_or_ge t 100 with h1 | h1
    · rw [pageAfter_early d T t el h h1]
      simp
    · rcases Nat.lt_or_ge t 5000 with h2 | h2
      · rw [pageAfter_shown d T t el h h1 h2]
        simp
      · rw [pageAfter_hidden d T t el h h2]
        simp
  · intro late
    have hs := showInstant_ge late T el
    have hle := showInstant_le_hideInstant late T el
    refine ⟨?_, by omega, hle⟩
    rcases Nat.lt_or_ge (T + t) (showInstant late T el) with h1 | h1
    · rw [pageAfter_before late d T t el h h1]
      have h3 : ¬ (showInstant late T el ≤ T + t) := by omega
      have h4 : ¬ (hideInstant late T el ≤ T + t) := by omega
      simp [h3, h4]
    · rcases Nat.lt_or_ge (T + t) (hideInstant late T el) with h2 | h2
      · rw [pageAfter_between late d T t el h h1 h2]
        have h4 : ¬ (hideInstant late T el ≤ T + t) := by omega
        simp only [showInstant, hideInstant] at h1 h4 ⊢
        simp [h1, h4]
      · rw [pageAfter_after late d T t el h h2]
        simp only [showInstant, hideInstant] at h1 h2 ⊢
        simp [h1, h2]

theorem C4_listener_then_show_then_hide_witness :
    (pageAfter onTime toastPage 40 6000).trace
      = (40, Event.listenerRan)
          :: ((if 100 ≤ 6000 then [(40 + 100, Event.timerRan (.addShow 1))] else [])
              ++ (if 5000 ≤ 6000 then [(40 + 5000, Event.timerRan (.removeShow 1))] else [])) :=
  (C4_listener_then_show_then_hide toastPage 40 6000 1 (by decide)).1

/-- C5 (as stated, refuted): on a page whose toast is rendered without show,
with the show callback run 12 ms and the hide callback 10 ms after they are
due, the toast does not carry show 105 ms after the trigger and still
carries it 5005 ms after the trigger; so the windows 100 <= t < 5000 and
t >= 5000 do not hold for every run. -/
theorem C5_late_timers_shift_the_windows :
    querySelector toastPage "toast-notification" = some 1
      ∧ "show" ∉ (toastPage.node 1).classes
      ∧ showInstant busyMainThread 0 1 = 112
      ∧ hideInstant busyMainThread 0 1 = 5010
      ∧ "show" ∉ ((pageAfter busyMainThread toastPage 0 105).doc.node 1).classes
      ∧ "show" ∈ ((pageAfter busyMainThread toastPage 0 5005).doc.node 1).classes
      ∧ ¬ (∀ (late : Lateness) (d : Document) (T : Nat) (el : NodeId),
            querySelector d "toast-notification" = some el →
            "show" ∉ (d.node el).classes →
            ∀ t : Nat,
              (t < 100 → "show" ∉ ((pageAfter late d T t).doc.node el).classes)
              ∧ (100 ≤ t → t < 5000 → "show" ∈ ((pageAfter late d T t).doc.node el).classes)
              ∧ (5000 ≤ t → "show" ∉ ((pageAfter late d T t).doc.node el).classes)) := by
  have h105 : "show" ∉ ((pageAfter busyMainThread toastPage 0 105).doc.node 1).classes := by
    decide
  refine ⟨by decide, by decide, by decide, by decide, h105, by decide, fun hall => ?_⟩
  exact h105 ((hall busyMainThread toastPage 0 1 (by decide) (by decide) 105).2.1
    (by decide) (by decide))

/-- C5 (amended): for a found element rendered without show, with S the
instant the show callback runs and H the instant the hide callback runs
(T + 100 <= S, T + 5000 <= H and S <= H, a timeout running at or after its
due time and the 100 ms one first), the listener itself leaves the document
as rendered and the class list at instant T + t is the rendered one, without
show, while T + t < S (so for every t < 100, whatever the lateness), carries
show while S <= T + t < H, and does not carry show once H <= T + t.  When
both callbacks run exactly when due, S = T + 100 and H = T + 5000, and the
windows are t < 100, 100 <= t < 5000 and t >= 5000. -/
theorem C5_class_list_between_callbacks (late : Lateness) (d : Document) (T : Nat)
    (el : NodeId)
    (h : querySelector d "toast-notification" = some el)
    (hs : "show" ∉ (d.node el).classes) :
    (onDOMContentLoaded (Browser.atTrigger d T)).doc = d
      ∧ T + 100 ≤ showInstant late T el
      ∧ T + 5000 ≤ hideInstant late T el
      ∧ showInstant late T el ≤ hideInstant late T el
      ∧ (∀ t : Nat,
          (T + t < showInstant late T el →
              ((pageAfter late d T t).doc.node el).classes = (d.node el).classes
              ∧ "show" ∉ ((pageAfter late d T t).doc.node el).classes)
          ∧ (t < 100 →
              ((pageAfter late d T t).doc.node el).classes = (d.node el).classes
              ∧ "show" ∉ ((pageAfter late d T t).doc.node el).classes)
          ∧ (showInstant late T el ≤ T + t → T + t < hideInstant late T el →
              "show" ∈ ((pageAfter late d T t).doc.node el).classes)
          ∧ (hideInstant late T el ≤ T + t →
              "show" ∉ ((pageAfter late d T t).doc.node el).classes))
      ∧ showInstant onTime T el = T + 100
      ∧ hideInstant onTime T el = T + 5000
      ∧ (∀ t : Nat,
          (t < 100 → ((pageAfter onTime d T t).doc.node el).classes = (d.node el).classes
                      ∧ "show" ∉ ((pageAfter onTime d T t).doc.node el).classes)
          ∧ (100 ≤ t → t < 5000 → "show" ∈ ((pageAfter onTime d T t).doc.node el).classes)
          ∧ (5000 ≤ t → "show" ∉ ((pageAfter onTime d T t).doc.node el).classes)) := by
  have general : ∀ (l : Lateness) (t : Nat),
      (T + t < showInstant l T el →
          ((pageAfter l d T t).doc.node el).classes = (d.node el).classes
          ∧ "show" ∉ ((pageAfter l d T t).doc.node el).classes)
      ∧ (showInstant l T el ≤ T + t → T + t < hideInstant l T el →
          "show" ∈ ((pageAfter l d T t).doc.node el).classes)
      ∧ (hideInstant l T el ≤ T + t →
          "show" ∉ ((pageAfter l d T t).doc.node el).classes) := by
    intro l t
    refine ⟨fun h1 => ?_, fun h1 h2 => ?_, fun h2 => ?_⟩
    · rw [classes_before l d T t el h h1]; exact ⟨rfl, hs⟩
    · rw [classes_between l d T t el h h1 h2]; exact mem_withShow _
    · rw [classes_after l d T t el h h2]; exact not_mem_withoutShow _
  refine ⟨?_, showInstant_ge late T el, hideInstant_ge late T el,
    showInstant_le_hideInstant late T el, fun t => ?_, showInstant_onTime T el,
    hideInstant_onTime T el, fun t => ?_⟩
  · rw [onDOMContentLoaded_found _ el h]; rfl
  · have g := general late t
    have hge := showInstant_ge late T el
    exact ⟨g.1, fun h1 => g.1 (by omega), g.2.1, g.2.2⟩
  · have g := general onTime t
    rw [showInstant_onTime, hideInstant_onTime] at g
    exact ⟨fun h1 => g.1 (by omega), fun h1 h2 => g.2.1 (by omega) (by omega),
      fun h2 => g.2.2 (by omega)⟩

theorem C5_class_list_between_callbacks_witness :
    "show" ∈ ((pageAfter busyMainThread toastPage 40 112).doc.node 1).classes
      ∧ "show" ∉ ((pageAfter busyMainThread toastPage 40 5010).doc.node 1).classes
      ∧ "show" ∈ ((pageAfter onTime toastPage 40 100).doc.node 1).classes :=
  ⟨((C5_class_list_between_callbacks busyMainThread toastPage 40 1 (by decide)
      (by decide)).2.2.2.2.1 112).2.2.1 (by decide) (by decide),
   ((C5_class_list_between_callbacks busyMainThread toastPage 40 1 (by decide)
      (by decide)).2.2.2.2.1 5010).2.2.2 (by decide),
   ((C5_class_list_between_callbacks onTime toastPage 40 1 (by decide)
      (by decide)).2.2.2.2.2.2.2 100).2.1 (by decide) (by decide)⟩

/-- C6: the listener leaves the document exactly as it found it, and every
callback it registers, run on any document, succeeds, keeps the document
order (no element created or removed), keeps every node other than the found
element as it is, keeps the other attributes of the found element, and keeps
the class tokens of the found element other than show, in the same order. -/
theorem C6_only_show_membership_changes (d : Document) (T : Nat) :
    (onDOMContentLoaded (Browser.atTrigger d T)).doc = d
      ∧ ∀ tm ∈ (onDOMContentLoaded (Browser.atTrigger d T)).timers,
        ∀ page : Document, ∃ (el : NodeId) (page1 : Document),
          querySelector d "toast-notification" = some el
          ∧ tm.callback.run page = .ok page1
          ∧ page1.order = page.order
          ∧ (∀ n : NodeId, n ≠ el → page1.node n = page.node n)
          ∧ (page1.node el).attrs = (page.node el).attrs
          ∧ (page1.node el).classes.filter (fun t => t != "show")
              = (page.node el).classes.filter (fun t => t != "show") := by
  cases hq : querySelector d "toast-notification" with
  | none =>
    rw [onDOMContentLoaded_absent _ hq]
    exact ⟨rfl, fun tm htm => absurd htm (List.not_mem_nil tm)⟩
  | some el =>
    rw [onDOMContentLoaded_found _ el hq]
    refine ⟨rfl, fun tm htm page => ?_⟩
    simp only [Browser.atTrigger, List.nil_append, List.mem_cons, List.mem_singleton,
      List.not_mem_nil, or_false] at htm
    rcases htm with rfl | rfl
    · refine ⟨el, _, rfl, run_addShow el page, rfl, ?_, ?_, ?_⟩
      · intro n hn; simp [Document.setClasses, Function.update_noteq hn]
      · simp [Document.setClasses]
      · by_cases hs : "show" ∈ (page.node el).classes
        · simp [Document.setClasses, hs]
        · simp [Document.setClasses, hs, List.filter_append]
    · refine ⟨el, _, rfl, run_removeShow el page, rfl, ?_, ?_, ?_⟩
      · intro n hn; simp [Document.setClasses, Function.update_noteq hn]
      · simp [Document.setClasses]
      · simp [Document.setClasses, List.filter_filter]

theorem C6_only_show_membership_changes_witness :
    ∃ (el : NodeId) (page1 : Document),
      querySelector toastPage "toast-notification" = some el
      ∧ Callback.run (.addShow 1) demoPage = .ok page1
      ∧ page1.order = demoPage.order
      ∧ (∀ n : NodeId, n ≠ el → page1.node n = demoPage.node n)
      ∧ (page1.node el).attrs = (demoPage.node el).attrs
      ∧ (page1.node el).classes.filter (fun t => t != "show")
          = (demoPage.node el).classes.filter (fun t => t != "show") :=
  (C6_only_show_membership_changes toastPage 0).2 ⟨0 + 100, .addShow 1⟩ (by decide) demoPage

/-- C7: for every class list, classList.add of show succeeds and, when show
is already there, returns the list unchanged; classList.remove of show
succeeds and, when show is not there, returns the list unchanged; adding
twice gives what adding once gives, removing twice what removing once gives;
and a list holding show at most once holds it exactly once after add. -/
theorem C7_add_and_remove_idempotent (c : List String) :
    ("show" ∈ c → classList.add c "show" = .ok c)
      ∧ ("show" ∉ c → classList.remove c "show" = .ok c)
      ∧ (∃ c1, classList.add c "show" = .ok c1 ∧ classList.add c1 "show" = .ok c1
          ∧ (c.count "show" ≤ 1 → c1.count "show" = 1))
      ∧ (∃ c2, classList.remove c "show" = .ok c2 ∧ classList.remove c2 "show" = .ok c2)
      ∧ (classList.add c "show" >>= fun c1 => classList.add c1 "show")
          = classList.add c "show"
      ∧ (classList.remove c "show" >>= fun c2 => classList.remove c2 "show")
          = classList.remove c "show" := by
  have hadd : ∀ l : List String, "show" ∈ l → classList.add l "show" = .ok l := by
    intro l hl; rw [classList_add_show, if_pos hl]
  have hrem : ∀ l : List String, "show" ∉ l → classList.remove l "show" = .ok l := by
    intro l hl
    rw [classList_remove_show]
    congr 1
    rw [List.filter_eq_self]
    intro a ha
    have : a ≠ "show" := fun e => hl (e ▸ ha)
    simpa using this
  have hin : "show" ∈ withShow c := by
    unfold withShow; split
    · assumption
    · simp
  have hout : "show" ∉ withoutShow c := by
    simp [withoutShow, List.mem_filter]
  refine ⟨hadd c, hrem c, ⟨withShow c, classList_add_show c, hadd _ hin, ?_⟩,
    ⟨withoutShow c, classList_remove_show c, hrem _ hout⟩, ?_, ?_⟩
  · intro hc
    unfold withShow
    by_cases hs : "show" ∈ c
    · rw [if_pos hs]
      have := List.count_pos_iff.mpr hs
      omega
    · rw [if_neg hs]
      simp [List.count_eq_zero_of_not_mem hs]
  · rw [classList_add_show c]
    exact hadd _ hin
  · rw [classList_remove_show c]
    exact hrem _ hout

theorem C7_add_and_remove_idempotent_witness :
    classList.add ["toast-notification", "show"] "show" = .ok ["toast-notification", "show"] :=
  (C7_add_and_remove_idempotent ["toast-notification", "show"]).1 (by decide)

/-- C8 (as stated, refuted): on the class list of a freshly rendered toast,
adding show and then removing it does not give the same class list as
removing show and then adding it. -/
theorem C8_add_remove_do_not_commute :
    (classList.add ["toast-notification"] "show" >>= fun c => classList.remove c "show")
        = .ok ["toast-notification"]
      ∧ (classList.remove ["toast-notification"] "show" >>= fun c => classList.add c "show")
        = .ok ["toast-notification", "show"]
      ∧ ¬ (∀ c : List String,
            (classList.add c "show" >>= fun c1 => classList.remove c1 "show")
              = (classList.remove c "show" >>= fun c1 => classList.add c1 "show")) := by
  refine ⟨rfl, rfl, fun hall => ?_⟩
  have h := hall ["toast-notification"]
  have h1 : (classList.add ["toast-notification"] "show"
      >>= fun c => classList.remove c "show") = .ok ["toast-notification"] := rfl
  have h2 : (classList.remove ["toast-notification"] "show"
      >>= fun c => classList.add c "show") = .ok ["toast-notification", "show"] := rfl
  rw [h1, h2] at h
  injection h with h
  exact absurd h (by decide)

/-- C8 (amended): for every class list c, add-then-remove succeeds and yields
c with show deleted, remove-then-add succeeds and yields c with show deleted
followed by show; the two results hold the same tokens other than show in the
same order, but the first never carries show and the second always does, so
they are never equal: the callback that runs last decides whether the
element ends with show. -/
theorem C8_last_mutation_decides_show (c : List String) :
    (classList.add c "show" >>= fun c1 => classList.remove c1 "show")
        = .ok (c.filter (fun t => t != "show"))
      ∧ (classList.remove c "show" >>= fun c1 => classList.add c1 "show")
        = .ok (c.filter (fun t => t != "show") ++ ["show"])
      ∧ (c.filter (fun t => t != "show") ++ ["show"]).filter (fun t => t != "show")
          = (c.filter (fun t => t != "show")).filter (fun t => t != "show")
      ∧ "show" ∉ c.filter (fun t => t != "show")
      ∧ "show" ∈ c.filter (fun t => t != "show") ++ ["show"]
      ∧ (classList.add c "show" >>= fun c1 => classList.remove c1 "show")
          ≠ (classList.remove c "show" >>= fun c1 => classList.add c1 "show") := by
  have hout : "show" ∉ c.filter (fun t => t != "show") := by
    simp [List.mem_filter]
  have h1 : (classList.add c "show" >>= fun c1 => classList.remove c1 "show")
      = .ok (c.filter (fun t => t != "show")) := by
    rw [classList_add_show c]
    show classList.remove _ "show" = _
    rw [classList_remove_show]
    by_cases hs : "show" ∈ c
    · rw [if_pos hs]
    · rw [if_neg hs]; simp [List.filter_append]
  have h2 : (classList.remove c "show" >>= fun c1 => classList.add c1 "show")
      = .ok (c.filter (fun t => t != "show") ++ ["show"]) := by
    rw [classList_remove_show c]
    show classList.add _ "show" = _
    rw [classList_add_show, if_neg hout]
  refine ⟨h1, h2, ?_, hout, ?_, ?_⟩
  · simp [List.filter_append, List.filter_filter]
  · simp
  · rw [h1, h2]
    intro h
    injection h with h
    have hlen := congrArg List.length h
    simp at hlen

/-- C9: the listener looks the element up once and both timers carry that
reference.  Whatever the page is changed into between the trigger and the
first timer (by f) and between the two timers (by g), the timer at T + 100
adds show to the node el that was the first match at trigger time, so el
carries show right after it, and the timer at T + 5000 removes show from
that same node, so el does not carry show right after it; each leaves the
document order and every other node, whether or not it matches by then,
exactly as the change left them.  Whenever a callback runs and whatever page
it meets, it succeeds and rewrites the class list of el only. -/
theorem C9_timers_keep_the_looked_up_element (d : Document) (T : Nat) (el : NodeId)
    (h : querySelector d "toast-notification" = some el) (f g : Document → Document) :
    let b0 := onDOMContentLoaded (Browser.atTrigger d T)
    let b1 := elapse onTime 100 { b0 with doc := f b0.doc }
    let b2 := elapse onTime 4900 { b1 with doc := g b1.doc }
    b0.timers = [⟨T + 100, .addShow el⟩, ⟨T + 5000, .removeShow el⟩]
      ∧ b1.doc = (f d).setClasses el (withShow ((f d).node el).classes)
      ∧ b2.doc = (g b1.doc).setClasses el (withoutShow ((g b1.doc).node el).classes)
      ∧ b1.doc.order = (f d).order ∧ b2.doc.order = (g b1.doc).order
      ∧ (∀ n : NodeId, n ≠ el →
          b1.doc.node n = (f d).node n ∧ b2.doc.node n = (g b1.doc).node n)
      ∧ b2.timers = []
      ∧ b2.trace = [(T, Event.listenerRan), (T + 100, Event.timerRan (.addShow el)),
                    (T + 5000, Event.timerRan (.removeShow el))]
      ∧ (b1.doc.node el).classes
          = (if "show" ∈ ((f d).node el).classes then ((f d).node el).classes
             else ((f d).node el).classes ++ ["show"])
      ∧ "show" ∈ (b1.doc.node el).classes
      ∧ (b2.doc.node el).classes
          = ((g b1.doc).node el).classes.filter (fun c => c != "show")
      ∧ "show" ∉ (b2.doc.node el).classes
      ∧ (∀ page : Document, ∃ page1 : Document,
          Callback.run (.addShow el) page = .ok page1
          ∧ (page1.node el).classes
              = (if "show" ∈ (page.node el).classes then (page.node el).classes
                 else (page.node el).classes ++ ["show"])
          ∧ "show" ∈ (page1.node el).classes
          ∧ page1.order = page.order
          ∧ ∀ n : NodeId, n ≠ el → page1.node n = page.node n)
      ∧ (∀ page : Document, ∃ page1 : Document,
          Callback.run (.removeShow el) page = .ok page1
          ∧ (page1.node el).classes = (page.node el).classes.filter (fun c => c != "show")
          ∧ "show" ∉ (page1.node el).classes
          ∧ page1.order = page.order
          ∧ ∀ n : NodeId, n ≠ el → page1.node n = page.node n) := by
  intro b0 b1 b2
  have e0 : b0 =
      { doc := d, now := T,
        timers := [⟨T + 100, .addShow el⟩, ⟨T + 5000, .removeShow el⟩],
        trace := [(T, Event.listenerRan)] } := by
    show onDOMContentLoaded (Browser.atTrigger d T) = _
    rw [onDOMContentLoaded_found _ el h]; rfl
  have e1 : b1 =
      { doc := (f d).setClasses el (withShow ((f d).node el).classes),
        now := T + 100, timers := [⟨T + 5000, .removeShow el⟩],
        trace := [(T, Event.listenerRan), (T + 100, Event.timerRan (.addShow el))] } := by
    show elapse onTime 100 { b0 with doc := f b0.doc } = _
    rw [e0]
    simp [elapse, dueOrder_pair, runReady, runInstant_onTime_add, runInstant_onTime_remove,
      fireTimer_addShow]
  have e2 : b2 =
      { doc := (g b1.doc).setClasses el (withoutShow ((g b1.doc).node el).classes),
        now := T + 100 + 4900, timers := [],
        trace := [(T, Event.listenerRan), (T + 100, Event.timerRan (.addShow el)),
                  (T + 5000, Event.timerRan (.removeShow el))] } := by
    show elapse onTime 4900 { b1 with doc := g b1.doc } = _
    rw [e1]
    have h5 : T + 5000 ≤ T + 100 + 4900 := by omega
    simp [elapse, dueOrder, insertByDue, runReady, runInstant_onTime_remove,
      fireTimer_removeShow, h5]
  have hd1 : b1.doc = (f d).setClasses el (withShow ((f d).node el).classes) := by rw [e1]
  have hd2 : b2.doc = (g b1.doc).setClasses el (withoutShow ((g b1.doc).node el).classes) := by
    rw [e2]
  refine ⟨by rw [e0], hd1, hd2, by rw [hd1]; rfl, by rw [hd2]; rfl, ?_,
    by rw [e2], by rw [e2], ?_, ?_, ?_, ?_, ?_, ?_⟩
  · intro n hn
    constructor
    · rw [hd1]; exact setClasses_node_other _ _ _ _ hn
    · rw [hd2]; exact setClasses_node_other _ _ _ _ hn
  · rw [hd1, setClasses_node_self]; rfl
  · rw [hd1, setClasses_node_self]; exact mem_withShow _
  · rw [hd2, setClasses_node_self]; rfl
  · rw [hd2, setClasses_node_self]; exact not_mem_withoutShow _
  · intro page
    refine ⟨_, run_addShow el page, setClasses_node_self _ _ _, ?_, rfl,
      fun n hn => setClasses_node_other _ _ _ _ hn⟩
    rw [setClasses_node_self]; exact mem_withShow _
  · intro page
    refine ⟨_, run_removeShow el page, setClasses_node_self _ _ _, ?_, rfl,
      fun n hn => setClasses_node_other _ _ _ _ hn⟩
    rw [setClasses_node_self]; exact not_mem_withoutShow _

theorem C9_timers_keep_the_looked_up_element_witness :
    querySelector (insertEarlierToast toastPage) "toast-notification" = some 7
      ∧ "show" ∈ ((elapse onTime 100
          { onDOMContentLoaded (Browser.atTrigger toastPage 40) with
            doc := insertEarlierToast (onDOMContentLoaded (Browser.atTrigger toastPage 40)).doc
          }).doc.node 1).classes
      ∧ (elapse onTime 100
          { onDOMContentLoaded (Browser.atTrigger toastPage 40) with
            doc := insertEarlierToast (onDOMContentLoaded (Browser.atTrigger toastPage 40)).doc
          }).doc.node 7 = (insertEarlierToast toastPage).node 7 :=
  ⟨by decide,
   (C9_timers_keep_the_looked_up_element toastPage 40 1 (by decide)
      insertEarlierToast stripClassesOfNode1).2.2.2.2.2.2.2.2.2.1,
   ((C9_timers_keep_the_looked_up_element toastPage 40 1 (by decide)
      insertEarlierToast stripClassesOfNode1).2.2.2.2.2.1 7 (by decide)).1⟩

/-- C10: once both timers have run in due-time order (t >= 5000) with nothing
else acting on the page, the class list of the found element is its rendered
class list with show deleted and never carries show; it equals the rendered
class list when that had no show, and differs from it when that had show.
The same final class list is reached however late the platform runs the two
timers, once the hide callback has run. -/
theorem C10_final_class_list (d : Document) (T t : Nat) (el : NodeId)
    (h : querySelector d "toast-notification" = some el) (ht : 5000 ≤ t) :
    ((pageAfter onTime d T t).doc.node el).classes
        = (d.node el).classes.filter (fun c => c != "show")
      ∧ "show" ∉ ((pageAfter onTime d T t).doc.node el).classes
      ∧ ("show" ∉ (d.node el).classes →
          ((pageAfter onTime d T t).doc.node el).classes = (d.node el).classes)
      ∧ ("show" ∈ (d.node el).classes →
          ((pageAfter onTime d T t).doc.node el).classes ≠ (d.node el).classes)
      ∧ (pageAfter onTime d T t).timers = []
      ∧ (∀ (late : Lateness) (u : Nat), hideInstant late T el ≤ T + u →
          ((pageAfter late d T u).doc.node el).classes
              = (d.node el).classes.filter (fun c => c != "show")
            ∧ "show" ∉ ((pageAfter late d T u).doc.node el).classes
            ∧ (pageAfter late d T u).timers = []) := by
  have hfin : ((pageAfter onTime d T t).doc.node el).classes
      = (d.node el).classes.filter (fun c => c != "show") := by
    have := classes_after onTime d T t el h (by rw [hideInstant_onTime]; omega)
    rw [this]; rfl
  have hout : "show" ∉ (d.node el).classes.filter (fun c => c != "show") :=
    not_mem_withoutShow _
  refine ⟨hfin, ?_, ?_, ?_, ?_, ?_⟩
  · rw [hfin]; exact hout
  · intro hs
    rw [hfin]; exact withoutShow_eq_self _ hs
  · intro hs heq
    rw [hfin] at heq
    rw [← heq] at hs
    exact hout hs
  · rw [pageAfter_hidden d T t el h ht]
  · intro late u hu
    refine ⟨?_, ?_, ?_⟩
    · rw [classes_after late d T u el h hu]; rfl
    · rw [classes_after late d T u el h hu]; exact not_mem_withoutShow _
    · rw [pageAfter_after late d T u el h hu]

theorem C10_final_class_list_witness :
    ((pageAfter onTime shownPage 40 5000).doc.node 1).classes
      = (shownPage.node 1).classes.filter (fun c => c != "show") :=
  (C10_final_class_list shownPage 40 5000 1 (by decide) (by decide)).1

end Toast
